import Mathlib

/-! Shallow embedding of the Calculator-Project repository: the pure math
utility library and the advanced-calculator state machine, together with
theorems settling the specification claims about them.

JS `number` values are modelled as exact rationals (`ℚ`); the NaN/Infinity
non-finite values are modelled by `none` in `Option ℚ` where a function can
produce them.  The quadratic solver, which genuinely needs square roots, is
modelled over `ℝ`. -/

namespace CalcProj

/-- JS regex class `\d` (ASCII digits). -/
def jsIsDigit (c : Char) : Bool := '0' ≤ c && c ≤ '9'

/-- JS regex class `\s`, restricted to the ASCII whitespace characters. -/
def jsIsSpace (c : Char) : Bool := c = ' ' || c = '\t' || c = '\n' || c = '\r'

/-- JS regex class `[a-zA-Z]`. -/
def jsIsAsciiLetter (c : Char) : Bool :=
  ('a' ≤ c && c ≤ 'z') || ('A' ≤ c && c ≤ 'Z')

/-- The character class `[a-zA-Zπ(]` of the implicit-multiplication regex. -/
def isMulTarget (c : Char) : Bool := jsIsAsciiLetter c || c = 'π' || c = '('

/-- Pass 1 of `sanitizeExpressionForEval`: `×` to `*` and `÷` to `/`. -/
def glyphPass (cs : List Char) : List Char :=
  cs.map fun c => if c = '×' then '*' else if c = '÷' then '/' else c

/-- Pass 2: the superscript glyph `²` becomes `^2`. -/
def squaredPass (cs : List Char) : List Char :=
  (cs.map fun c => if c = '²' then ['^', '2'] else [c]).flatten

/-- Pass 3: the global replacement of the regex `(\d)\s*([a-zA-Zπ(])` by
`$1*$2`, scanning left to right; on a failed match the scan advances one
character, on a successful match it continues after the matched target.
The fuel argument bounds the recursion; each step consumes at least one
input character, so fuel equal to the input length never runs out. -/
def insertMulPass : ℕ → List Char → List Char
  | 0, cs => cs
  | _, [] => []
  | f + 1, c :: cs =>
    if jsIsDigit c then
      match cs.dropWhile jsIsSpace with
      | b :: rest =>
        if isMulTarget b then c :: '*' :: b :: insertMulPass f rest
        else c :: insertMulPass f cs
      | [] => c :: insertMulPass f cs
    else c :: insertMulPass f cs

/-- Pass 4: the global replacement of `\)\s*\(` by `)*(`. -/
def parenMulPass : ℕ → List Char → List Char
  | 0, cs => cs
  | _, [] => []
  | f + 1, c :: cs =>
    if c = ')' then
      match cs.dropWhile jsIsSpace with
      | '(' :: rest => ')' :: '*' :: '(' :: parenMulPass f rest
      | _ => ')' :: parenMulPass f cs
    else c :: parenMulPass f cs

/-- Pass 5: `π` becomes the mathjs identifier `pi`. -/
def piPass (cs : List Char) : List Char :=
  (cs.map fun c => if c = 'π' then ['p', 'i'] else [c]).flatten

/-- Pass 6: the global replacement of `(\d+(\.\d+)?)%` by `($1/100)`.
The scan takes the maximal numeric literal at each digit position; if no
`%` follows, no shorter sub-literal can match either (the next character
after a shortened literal is always a digit or a dot, never `%`), so the
scan advances one character exactly as the regex engine does. -/
def percentPass : ℕ → List Char → List Char
  | 0, cs => cs
  | _, [] => []
  | f + 1, c :: cs =>
    if jsIsDigit c then
      let intDs := c :: cs.takeWhile jsIsDigit
      let afterInt := cs.dropWhile jsIsDigit
      let litAndRest : List Char × List Char :=
        match afterInt with
        | '.' :: ds2 =>
          let frDs := ds2.takeWhile jsIsDigit
          if frDs = [] then (intDs, afterInt)
          else (intDs ++ '.' :: frDs, ds2.dropWhile jsIsDigit)
        | _ => (intDs, afterInt)
      match litAndRest.2 with
      | '%' :: rest =>
        '(' :: (litAndRest.1 ++ ['/', '1', '0', '0', ')']) ++ percentPass f rest
      | _ => c :: percentPass f cs
    else c :: percentPass f cs

/-- The expression pre-processor `sanitizeExpressionForEval` of the advanced
calculator: the six replacement passes applied in source order. -/
def sanitizeExpressionForEval (s : String) : String :=
  let e1 := glyphPass s.data
  let e2 := squaredPass e1
  let e3 := insertMulPass e2.length e2
  let e4 := parenMulPass e3.length e3
  let e5 := piPass e4
  let e6 := percentPass e5.length e5
  String.mk e6

/-- Value of a list of decimal digit characters. -/
def digitsToNat (ds : List Char) : ℕ :=
  ds.foldl (fun a c => 10 * a + (c.toNat - '0'.toNat)) 0

/-- Parse a numeric literal `\d+(\.\d+)?` at the head of the input. -/
def parseNumber (cs : List Char) : Option (ℚ × List Char) :=
  let ds := cs.takeWhile jsIsDigit
  let rest := cs.dropWhile jsIsDigit
  if ds = [] then none
  else
    match rest with
    | '.' :: rest2 =>
      let fs := rest2.takeWhile jsIsDigit
      if fs = [] then none
      else some ((digitsToNat ds : ℚ) + (digitsToNat fs : ℚ) / 10 ^ fs.length,
        rest2.dropWhile jsIsDigit)
    | _ => some ((digitsToNat ds : ℚ), rest)

mutual

/-- Modelled from the spec: the delegated mathjs expression evaluator is an
external library; per §9 of the spec it may be substituted by a hand-written
recursive-descent parser over arithmetic operators and parentheses.  This
model supports numeric literals, unary minus, `+ - * /` and parentheses
(the fragment exercised by the claims); `parseExpr` handles `+`/`-`. -/
def parseExpr : ℕ → List Char → Option (ℚ × List Char)
  | 0, _ => none
  | f + 1, cs =>
    match parseTerm f cs with
    | some (v, rest) => parseExprOps f v rest
    | none => none

/-- Chain of `+`/`-` operations after an initial term. -/
def parseExprOps : ℕ → ℚ → List Char → Option (ℚ × List Char)
  | 0, _, _ => none
  | f + 1, acc, cs =>
    match cs with
    | '+' :: rest =>
      match parseTerm f rest with
      | some (v, r) => parseExprOps f (acc + v) r
      | none => none
    | '-' :: rest =>
      match parseTerm f rest with
      | some (v, r) => parseExprOps f (acc - v) r
      | none => none
    | _ => some (acc, cs)

/-- Multiplicative level of the modelled evaluator. -/
def parseTerm : ℕ → List Char → Option (ℚ × List Char)
  | 0, _ => none
  | f + 1, cs =>
    match parseFactor f cs with
    | some (v, rest) => parseTermOps f v rest
    | none => none

/-- Chain of `*`/`/` operations; division by zero yields `none`, matching
the caller's rejection of the non-finite value mathjs produces there. -/
def parseTermOps : ℕ → ℚ → List Char → Option (ℚ × List Char)
  | 0, _, _ => none
  | f + 1, acc, cs =>
    match cs with
    | '*' :: rest =>
      match parseFactor f rest with
      | some (v, r) => parseTermOps f (acc * v) r
      | none => none
    | '/' :: rest =>
      match parseFactor f rest with
      | some (v, r) => if v = 0 then none else parseTermOps f (acc / v) r
      | none => none
    | _ => some (acc, cs)

/-- Atoms of the modelled evaluator: unary minus, parenthesised expression,
numeric literal. -/
def parseFactor : ℕ → List Char → Option (ℚ × List Char)
  | 0, _ => none
  | f + 1, cs =>
    match cs with
    | '-' :: rest =>
      match parseFactor f rest with
      | some (v, r) => some (-v, r)
      | none => none
    | '(' :: rest =>
      match parseExpr f rest with
      | some (v, ')' :: r) => some (v, r)
      | _ => none
    | _ => parseNumber cs

end

/-- Modelled from the spec: the composite of mathjs `evaluate`, the `Number`
coercion and the finiteness check — `none` is any parse failure, thrown
evaluation error or non-finite value.  Spaces are tolerated by stripping
them up front. -/
def mathjsEval (s : String) : Option ℚ :=
  let cs := s.data.filter fun c => !jsIsSpace c
  match parseExpr (cs.length + 1) cs with
  | some (v, []) => some v
  | _ => none

/-- The `evaluateExpressionValue` helper of the advanced calculator:
sanitize, then hand the string to the delegated evaluator.  The evaluator,
an external capability, is a parameter; `none` covers both the `catch`
branch and the rejection of non-finite values. -/
def evaluateExpressionValue (evalF : String → Option ℚ) (expr : String) :
    Option ℚ :=
  evalF (sanitizeExpressionForEval expr)

/-- Remove trailing `'0'` characters, as `parseFloat(x).toString()` does to
a fixed-point rendering. -/
def dropTrailingZeros (cs : List Char) : List Char :=
  (cs.reverse.dropWhile (· = '0')).reverse

/-- Zero-pad a digit string on the left to six characters, the width
produced by `toFixed(6)`. -/
def padToSix (cs : List Char) : List Char :=
  List.replicate (6 - cs.length) '0' ++ cs

/-- The `formatNumber` helper of the advanced calculator, on a finite value:
values within `1e-12` of an integer display as that integer (`Math.round`
rounds half toward `+∞`, as does Mathlib's `round`); otherwise the value is
rendered with six fractional digits (`toFixed(6)`, modelled as rational
rounding to the nearest multiple of `1e-6`) and trailing zeros are
stripped. -/
def formatNumber (q : ℚ) : String :=
  if |(round q : ℚ) - q| < 1 / 10 ^ 12 then toString (round q)
  else
    let n : ℤ := round (q * 10 ^ 6)
    let sign : String := if n < 0 then "-" else ""
    let m : ℕ := n.natAbs
    let ip : ℕ := m / 10 ^ 6
    let fr : ℕ := m % 10 ^ 6
    let frCs : List Char := dropTrailingZeros (padToSix (toString fr).data)
    sign ++ toString ip ++ (if frCs = [] then "" else "." ++ String.mk frCs)

/-- The `formatNumber` helper on a JS number that may be non-finite:
`!isFinite(num) || isNaN(num)` displays as the `"NaN"` marker. -/
def formatNumberJS : Option ℚ → String
  | none => "NaN"
  | some q => formatNumber q

/-- The angle-mode flag of the advanced calculator. -/
inductive AngleMode where
  | deg : AngleMode
  | rad : AngleMode
deriving DecidableEq, Repr

/-- The state of the `AdvancedCalculator` component: `input`, `result`,
`lastExpression`, `angleMode`, `justComputed`.  The spec's `Editing` state
is `justComputed = false` and its `Computed` state is
`justComputed = true`. -/
structure CalculatorState where
  input : String
  result : Option String
  lastExpression : Option String
  angleMode : AngleMode
  justComputed : Bool
deriving DecidableEq, Repr

/-- The initial state: `Editing` with empty input. -/
def initialState : CalculatorState :=
  { input := "", result := none, lastExpression := none,
    angleMode := AngleMode.deg, justComputed := false }

/-- Test of the regex `^[+\-*\/%]$` in `handleInput`. -/
def isOperatorValue (v : String) : Bool :=
  v = "+" || v = "-" || v = "*" || v = "/" || v = "%"

/-- Test of `^[0-9.]$` or a parenthesis in `handleInput`. -/
def isDigitDotParenValue (v : String) : Bool :=
  (match v.data with
   | [c] => jsIsDigit c || c = '.'
   | _ => false) || v = "(" || v = ")"

/-- The `handleInput` transition: smart chaining after a computation
(operator continues from the result, a digit/dot/parenthesis starts over),
plain append otherwise.  In the JS source `input` is never null, so
`result ?? input` is modelled by `Option.getD`. -/
def handleInput (v : String) (st : CalculatorState) : CalculatorState :=
  if st.justComputed && isOperatorValue v then
    { st with
        input := st.result.getD st.input ++ v
        justComputed := false
        result := none }
  else if st.justComputed && isDigitDotParenValue v then
    { st with
        input := v
        justComputed := false
        result := none
        lastExpression := none }
  else
    { st with
        input := st.input ++ v
        result := none
        justComputed := false }

/-- The `handleClear` transition. -/
def handleClear (st : CalculatorState) : CalculatorState :=
  { st with
      input := ""
      result := none
      lastExpression := none
      justComputed := false }

/-- The `handleBackspace` transition: destructive full clear after a
computation, otherwise drop the last character. -/
def handleBackspace (st : CalculatorState) : CalculatorState :=
  if st.justComputed then
    { st with
        input := ""
        result := none
        lastExpression := none
        justComputed := false }
  else
    { st with
        input := st.input.dropRight 1 }

/-- JS `String.prototype.trim`, on the ASCII whitespace characters. -/
def jsTrim (s : String) : String :=
  String.mk (((s.data.dropWhile jsIsSpace).reverse.dropWhile jsIsSpace).reverse)

/-- The localized error marker set by `handleEquals` on failure. -/
def equalsErrorMarker : String := "错误"

/-- The `handleEquals` transition: blank input is a no-op that clears the
displays; otherwise the input is evaluated, and on success the formatted
value becomes the result and the next input. -/
def handleEquals (evalF : String → Option ℚ) (st : CalculatorState) :
    CalculatorState :=
  if jsTrim st.input = "" then
    { st with
        result := none
        lastExpression := none
        justComputed := false }
  else
    match evaluateExpressionValue evalF st.input with
    | none =>
      { st with
          result := some equalsErrorMarker
          lastExpression := some st.input
          justComputed := true }
    | some v =>
      let formatted := formatNumber v
      { st with
          lastExpression := some st.input
          result := some formatted
          input := formatted
          justComputed := true }

/-- The `toggleAngleMode` transition. -/
def toggleAngleMode (st : CalculatorState) : CalculatorState :=
  { st with
      angleMode := if st.angleMode = AngleMode.deg then AngleMode.rad else AngleMode.deg }

/-- The invalid-input marker of the unary-function handlers. -/
def invalidInputMarker : String := "输入无效"

/-- The float value of the JS constant `Math.PI`
(3.141592653589793115997963468544185161590576171875). -/
def piFloat : ℚ := 884279719003555 / 281474976710656

/-- The `calculateTrigFunction` transition.  The trigonometric callback is
an external `Math` function and is a parameter `func`, returning `none` for
a NaN result (e.g. `tan` at its guarded points); JS `Math` functions do not
throw, so the dead `catch` branch is not modelled. -/
def calculateTrigFunction (evalF : String → Option ℚ) (func : ℚ → Option ℚ)
    (label : String) (st : CalculatorState) : CalculatorState :=
  match evaluateExpressionValue evalF st.input with
  | none =>
    { st with
        result := some invalidInputMarker
        lastExpression := none
        justComputed := true }
  | some val =>
    let angle := if st.angleMode = AngleMode.deg then val * piFloat / 180
      else val
    let formatted := formatNumberJS (func angle)
    { st with
        lastExpression := some (label ++ "(" ++ st.input ++ (if st.angleMode = AngleMode.deg then "°" else "") ++ ")")
        result := some formatted
        input := formatted
        justComputed := true }

/-- The error marker of `handleFactorial`. -/
def factorialErrorMarker : String := "请输入非负整数"

/-- JS `String(out)` as applied by `handleFactorial` to the factorial
output: `NaN` renders as `"NaN"`, an integer as its decimal digits.  The
guard in `handleFactorial` makes non-integer outputs unreachable there;
for the record they render via `formatNumber`. -/
def jsNumberToString : Option ℚ → String
  | none => "NaN"
  | some q => if q.den = 1 then toString q.num else formatNumber q

/-- The `factorial` utility: NaN sentinel below zero, 1 at 0 and 1,
otherwise `n * factorial (n - 1)` with NaN propagating through the
product. -/
def factorial (n : ℚ) : Option ℚ :=
  if n < 0 then none
  else if n = 0 ∨ n = 1 then some 1
  else (factorial (n - 1)).map fun r => n * r
termination_by (⌈n⌉).toNat
decreasing_by
  rename_i h0 h1
  have hn : 0 < n := by
    rcases lt_trichotomy n 0 with h | h | h
    · exact absurd h h0
    · exact absurd (Or.inl h) h1
    · exact h
  have hc : (1 : ℤ) ≤ ⌈n⌉ := Int.ceil_pos.mpr hn
  have hs : ⌈n - 1⌉ = ⌈n⌉ - 1 := by
    exact_mod_cast Int.ceil_sub_int n 1
  omega

/-- The `handleFactorial` transition: the evaluated input must be a
non-negative integer, otherwise an error marker is shown and the utility
is not invoked.  `Number.isInteger` is `den = 1` on the rational model. -/
def handleFactorial (evalF : String → Option ℚ) (st : CalculatorState) :
    CalculatorState :=
  match evaluateExpressionValue evalF st.input with
  | none => { st with
                result := some factorialErrorMarker
                justComputed := true }
  | some val =>
    if val.den ≠ 1 ∨ val < 0 then
      { st with
          result := some factorialErrorMarker
          justComputed := true }
    else
      let formatted := jsNumberToString (factorial val)
      { st with
          lastExpression := some (toString val.num ++ "!")
          result := some formatted
          input := formatted
          justComputed := true }

/-- The `squareRoot` utility: DomainError sentinel below zero, otherwise
the external `Math.sqrt`, a parameter `sqrtF`. -/
def squareRootUtil (sqrtF : ℚ → ℚ) (n : ℚ) : Option ℚ :=
  if n < 0 then none else some (sqrtF n)

/-- The `handleSquareRoot` transition. -/
def handleSquareRoot (evalF : String → Option ℚ) (sqrtF : ℚ → ℚ)
    (st : CalculatorState) : CalculatorState :=
  match evaluateExpressionValue evalF st.input with
  | none => { st with
                result := some invalidInputMarker
                justComputed := true }
  | some val =>
    let formatted := formatNumberJS (squareRootUtil sqrtF val)
    { st with
        lastExpression := some ("√(" ++ st.input ++ ")")
        result := some formatted
        input := formatted
        justComputed := true }

/-- The marker of `handleReciprocal` for a null or zero value. -/
def reciprocalErrorMarker : String := "输入无效或除以0"

/-- The `reciprocal` utility: DivisionByZero sentinel at zero, otherwise
`1 / n` (exact on rationals). -/
def reciprocalUtil (n : ℚ) : Option ℚ :=
  if n = 0 then none else some (1 / n)

/-- The `handleReciprocal` transition. -/
def handleReciprocal (evalF : String → Option ℚ) (st : CalculatorState) :
    CalculatorState :=
  match evaluateExpressionValue evalF st.input with
  | none => { st with
                result := some reciprocalErrorMarker
                justComputed := true }
  | some val =>
    if val = 0 then
      { st with
          result := some reciprocalErrorMarker
          justComputed := true }
    else
      let formatted := formatNumberJS (reciprocalUtil val)
      { st with
          lastExpression := some ("1/(" ++ st.input ++ ")")
          result := some formatted
          input := formatted
          justComputed := true }

/-- The `handlePower` transition; `Math.pow` is external and is the
parameter `powF` (`none` for a non-finite output). -/
def handlePower (evalF : String → Option ℚ) (powF : ℚ → ℚ → Option ℚ)
    (exponent : ℚ) (st : CalculatorState) : CalculatorState :=
  match evaluateExpressionValue evalF st.input with
  | none => { st with
                result := some invalidInputMarker
                justComputed := true }
  | some val =>
    let formatted := formatNumberJS (powF val exponent)
    { st with
        lastExpression := some ("(" ++ st.input ++ ")^" ++ toString exponent.num)
        result := some formatted
        input := formatted
        justComputed := true }

/-- The inline `eˣ` button handler; `Math.exp` is external and is the
parameter `expF` (`none` for an overflow to Infinity). -/
def handleExp (evalF : String → Option ℚ) (expF : ℚ → Option ℚ)
    (st : CalculatorState) : CalculatorState :=
  match evaluateExpressionValue evalF st.input with
  | none => { st with
                result := some invalidInputMarker
                justComputed := true }
  | some val =>
    let formatted := formatNumberJS (expF val)
    { st with
        lastExpression := some ("e^(" ++ st.input ++ ")")
        result := some formatted
        input := formatted
        justComputed := true }

/-- The `handleInsertPi` transition. -/
def handleInsertPi (st : CalculatorState) : CalculatorState :=
  if st.justComputed then
    { st with
        input := "pi"
        justComputed := false
        result := none
        lastExpression := none }
  else
    { st with
        input := st.input ++ "pi" }

/-- The `handleInsertE` transition. -/
def handleInsertE (st : CalculatorState) : CalculatorState :=
  if st.justComputed then
    { st with
        input := "e"
        justComputed := false
        result := none
        lastExpression := none }
  else
    { st with
        input := st.input ++ "e" }

/-- The `solveQuadraticEquation` utility, over `ℝ` (the square root is
genuinely real): `none` for a non-quadratic (`a = 0`, DomainError) and for
a negative discriminant; a repeated root at a zero discriminant; the
`+√disc` root first in the positive case. -/
noncomputable def solveQuadraticEquation (a b c : ℝ) : Option (ℝ × ℝ) :=
  if a = 0 then none
  else
    let disc := b * b - 4 * a * c
    if disc < 0 then none
    else if disc = 0 then some (-b / (2 * a), -b / (2 * a))
    else
      let s := Real.sqrt disc
      some ((-b + s) / (2 * a), (-b - s) / (2 * a))

/-- The accumulation loop of `decimalToBinary`, producing the digit list
most-significant first: `binary = (n % 2) + binary` then `n = floor(n/2)`,
while `n > 0`. -/
def toBinDigits (n : ℕ) : List Char :=
  if _h : n = 0 then [] else toBinDigits (n / 2) ++ (toString (n % 2)).data
termination_by n
decreasing_by exact Nat.div_lt_self (Nat.pos_of_ne_zero _h) one_lt_two

/-- The `decimalToBinary` utility: negative inputs recurse on the absolute
value with a leading minus sign, exact zero maps to `"0"`, and otherwise
the integer part is converted by repeated division (an empty digit string
when that integer part is zero). -/
def decimalToBinary (num : ℚ) : String :=
  if num < 0 then "-" ++ decimalToBinary (-num)
  else if num = 0 then "0"
  else String.mk (toBinDigits (⌊num⌋).toNat)
termination_by if num < 0 then 1 else 0
decreasing_by
  simp_all
  linarith

/-- The character table `'0123456789ABCDEF'` indexed by a hex digit. -/
def hexDigitChar (k : ℕ) : Char :=
  "0123456789ABCDEF".data.getD k '0'

/-- The accumulation loop of `decimalToHex`. -/
def toHexDigits (n : ℕ) : List Char :=
  if _h : n = 0 then [] else toHexDigits (n / 16) ++ [hexDigitChar (n % 16)]
termination_by n
decreasing_by
  exact Nat.div_lt_self (Nat.pos_of_ne_zero _h) (by norm_num)

/-- The `decimalToHex` utility, structured exactly as `decimalToBinary`
with base 16 and the uppercase digit table. -/
def decimalToHex (num : ℚ) : String :=
  if num < 0 then "-" ++ decimalToHex (-num)
  else if num = 0 then "0"
  else String.mk (toHexDigits (⌊num⌋).toNat)
termination_by if num < 0 then 1 else 0
decreasing_by
  simp_all
  linarith

/-- Test of the regex `^[01]+$`. -/
def isBinChar (c : Char) : Bool := c = '0' || c = '1'

/-- Positional value of a validated binary digit string, as computed by
`parseInt(binary, 2)`. -/
def binVal (cs : List Char) : ℕ :=
  cs.foldl (fun a c => 2 * a + (if c = '1' then 1 else 0)) 0

/-- The `binaryToDecimal` utility: the input must match `^[01]+$`, else the
NaN sentinel (`none`); a valid input is decoded positionally. -/
def binaryToDecimal (s : String) : Option ℚ :=
  if s.data ≠ [] ∧ s.data.all isBinChar then some (binVal s.data : ℚ)
  else none

/-- Test of the regex `^[0-9A-Fa-f]$` for one character. -/
def isHexChar (c : Char) : Bool :=
  jsIsDigit c || ('A' ≤ c && c ≤ 'F') || ('a' ≤ c && c ≤ 'f')

/-- Numeric value of a hexadecimal digit character, both cases. -/
def hexCharVal (c : Char) : ℕ :=
  if jsIsDigit c then c.toNat - '0'.toNat
  else if 'A' ≤ c && c ≤ 'F' then c.toNat - 'A'.toNat + 10
  else c.toNat - 'a'.toNat + 10

/-- Positional value of a validated hex digit string, as computed by
`parseInt(hex, 16)`. -/
def hexVal (cs : List Char) : ℕ :=
  cs.foldl (fun a c => 16 * a + hexCharVal c) 0

/-- The `hexToDecimal` utility: the input must match `^[0-9A-Fa-f]+$`,
else the NaN sentinel. -/
def hexToDecimal (s : String) : Option ℚ :=
  if s.data ≠ [] ∧ s.data.all isHexChar then some (hexVal s.data : ℚ)
  else none

/-- The result-half of the spec's display invariant: a non-null `result`
implies the `Computed` state. -/
def ResultInv (st : CalculatorState) : Prop :=
  st.result ≠ none → st.justComputed = true

/-- The ten ASCII digit characters, the class `\d`. -/
def asciiDigits : List Char := ['0','1','2','3','4','5','6','7','8','9']

/-- The fifty-two ASCII letter characters, the class `[a-zA-Z]`. -/
def asciiLetters : List Char :=
  ['a','b','c','d','e','f','g','h','i','j','k','l','m','n','o','p','q','r',
   's','t','u','v','w','x','y','z','A','B','C','D','E','F','G','H','I','J',
   'K','L','M','N','O','P','Q','R','S','T','U','V','W','X','Y','Z']

/-! ### Helper lemmas -/

/-- `formatNumber` renders an exact integer as that integer's digits. -/
theorem formatNumber_int (m : ℤ) : formatNumber (m : ℚ) = toString m := by
  rw [formatNumber, round_intCast]
  rw [if_pos]
  rw [sub_self, abs_zero]
  positivity

/-- `formatNumber` renders any value within `1e-12` of an integer `m` as
`m`'s digits: `Math.round` picks exactly that nearest integer. -/
theorem formatNumber_near_int (v : ℚ) (m : ℤ) (h : |v - m| < 1 / 10 ^ 12) :
    formatNumber v = toString m := by
  have habs := abs_lt.mp h
  have hround : round v = m := by
    rw [round_eq, Int.floor_eq_iff]
    constructor
    · linarith [habs.1]
    · linarith [habs.2]
  rw [formatNumber, hround, if_pos]
  rw [abs_sub_comm]
  exact h

/-- Evaluation of `handleEquals` on a non-blank input whose expression
evaluates successfully. -/
theorem handleEquals_success (evalF : String → Option ℚ)
    (st : CalculatorState) (v : ℚ) (hne : jsTrim st.input ≠ "")
    (hv : evaluateExpressionValue evalF st.input = some v) :
    handleEquals evalF st =
      { st with
          lastExpression := some st.input
          result := some (formatNumber v)
          input := formatNumber v
          justComputed := true } := by
  rw [handleEquals, if_neg hne, hv]

/-! ### Claim theorems -/

/-- C1: starting from `Editing` with `inputText = "2+2"`, Evaluate yields
`result = "4"`, `lastExpression = "2+2"`, `inputText = "4"` in the
`Computed` state; appending the operator `"+"` then yields
`inputText = "4+"` back in `Editing`; appending `"3"` and evaluating
yields `result = "7"`.  (The delegated mathjs evaluator is modelled by
`mathjsEval`, per §9 of the spec.) -/
theorem claim_C1_chained_evaluation :
    handleEquals mathjsEval ⟨"2+2", none, none, AngleMode.deg, false⟩ =
      ⟨"4", some "4", some "2+2", AngleMode.deg, true⟩ ∧
    handleInput "+" ⟨"4", some "4", some "2+2", AngleMode.deg, true⟩ =
      ⟨"4+", none, some "2+2", AngleMode.deg, false⟩ ∧
    handleInput "3" ⟨"4+", none, some "2+2", AngleMode.deg, false⟩ =
      ⟨"4+3", none, some "2+2", AngleMode.deg, false⟩ ∧
    (handleEquals mathjsEval
        ⟨"4+3", none, some "2+2", AngleMode.deg, false⟩).result =
      some "7" := by
  have f4 : formatNumber ((2 : ℚ) + 2) = "4" := by
    have h42 : ((2 : ℚ) + 2) = ((4 : ℤ) : ℚ) := by norm_num
    rw [h42, formatNumber_int]
    rfl
  have f7 : formatNumber ((4 : ℚ) + 3) = "7" := by
    have h43 : ((4 : ℚ) + 3) = ((7 : ℤ) : ℚ) := by norm_num
    rw [h43, formatNumber_int]
    rfl
  refine ⟨?_, by decide, by decide, ?_⟩
  · rw [handleEquals_success mathjsEval
      ⟨"2+2", none, none, AngleMode.deg, false⟩ ((2 : ℚ) + 2)
      (by decide) rfl, f4]
  · rw [handleEquals_success mathjsEval
      ⟨"4+3", none, some "2+2", AngleMode.deg, false⟩ ((4 : ℚ) + 3)
      (by decide) rfl, f7]

/-- C3 counterexample: in the reachable state obtained by typing `2`, `+`,
`2`, evaluating, and then appending the operator `+`, the append has
cleared `result` but `lastExpression` is still `"2+2"` — so the transition
that appends the operator does not clear both, contradicting the claim. -/
theorem claim_C3_counterexample :
    (handleInput "+" (handleEquals mathjsEval
        (handleInput "2" (handleInput "+" (handleInput "2" initialState))))) =
      ⟨"4+", none, some "2+2", AngleMode.deg, false⟩ ∧
    some "2+2" ≠ (none : Option String) := by
  have h3 : handleInput "2" (handleInput "+" (handleInput "2" initialState)) =
      ⟨"2+2", none, none, AngleMode.deg, false⟩ := by decide
  rw [h3, handleEquals_success mathjsEval
    ⟨"2+2", none, none, AngleMode.deg, false⟩ ((2 : ℚ) + 2) (by decide) rfl]
  have f4 : formatNumber ((2 : ℚ) + 2) = "4" := by
    have h42 : ((2 : ℚ) + 2) = ((4 : ℤ) : ℚ) := by norm_num
    rw [h42, formatNumber_int]
    rfl
  rw [f4]
  exact ⟨by decide, by decide⟩

/-- C3 amended: every raw-input append clears `result`, but
`lastExpression` is cleared only when a digit/dot/parenthesis is entered
in the `Computed` state (operator appends after a computation, and all
appends while `Editing`, retain it); and the result-half of the invariant
— `result` non-null only in the `Computed` state — is preserved by every
transition of the component. -/
theorem claim_C3_amended_append_and_invariant
    (evalF : String → Option ℚ) (func : ℚ → Option ℚ)
    (powF : ℚ → ℚ → Option ℚ) (sqrtF : ℚ → ℚ) (expF : ℚ → Option ℚ)
    (label : String) (ex : ℚ) (v : String) (st : CalculatorState)
    (hinv : ResultInv st) :
    (handleInput v st).result = none ∧
    (handleInput v st).lastExpression =
      (if st.justComputed ∧ ¬ isOperatorValue v ∧ isDigitDotParenValue v
        then none else st.lastExpression) ∧
    ResultInv (handleInput v st) ∧
    ResultInv (handleClear st) ∧
    ResultInv (handleBackspace st) ∧
    ResultInv (handleEquals evalF st) ∧
    ResultInv (calculateTrigFunction evalF func label st) ∧
    ResultInv (handleFactorial evalF st) ∧
    ResultInv (handleSquareRoot evalF sqrtF st) ∧
    ResultInv (handleReciprocal evalF st) ∧
    ResultInv (handlePower evalF powF ex st) ∧
    ResultInv (handleExp evalF expF st) ∧
    ResultInv (toggleAngleMode st) ∧
    ResultInv (handleInsertPi st) ∧
    ResultInv (handleInsertE st) := by
  refine ⟨?_, ?_, ?_, ?_, ?_, ?_, ?_, ?_, ?_, ?_, ?_, ?_, ?_, ?_, ?_⟩
  · unfold handleInput
    split_ifs <;> rfl
  · unfold handleInput
    split_ifs with h1 h2 h3 <;> simp_all
  · unfold handleInput ResultInv
    split_ifs <;> simp
  · unfold handleClear ResultInv
    simp
  · unfold handleBackspace ResultInv
    split_ifs <;> simp_all [ResultInv]
  · unfold handleEquals ResultInv
    split_ifs with h1
    · simp
    · cases evaluateExpressionValue evalF st.input <;> simp
  · unfold calculateTrigFunction ResultInv
    cases evaluateExpressionValue evalF st.input <;> simp
  · unfold handleFactorial ResultInv
    cases evaluateExpressionValue evalF st.input with
    | none => simp
    | some val =>
      dsimp only
      split_ifs <;> simp
  · unfold handleSquareRoot ResultInv
    cases evaluateExpressionValue evalF st.input <;> simp
  · unfold handleReciprocal ResultInv
    cases evaluateExpressionValue evalF st.input with
    | none => simp
    | some val =>
      dsimp only
      split_ifs <;> simp
  · unfold handlePower ResultInv
    cases evaluateExpressionValue evalF st.input <;> simp
  · unfold handleExp ResultInv
    cases evaluateExpressionValue evalF st.input <;> simp
  · unfold toggleAngleMode ResultInv
    exact hinv
  · unfold handleInsertPi ResultInv
    split_ifs with h1 <;> simp_all [ResultInv]
  · unfold handleInsertE ResultInv
    split_ifs with h1 <;> simp_all [ResultInv]

/-- C3 amended, witnessed at the operator `"+"` applied to the initial
state with the trivial external evaluators. -/
theorem claim_C3_amended_witness :
    (handleInput "+" initialState).result = none ∧
    ResultInv (handleClear initialState) := by
  have h := claim_C3_amended_append_and_invariant (fun _ => none)
    (fun _ => none) (fun _ _ => none) (fun q => q) (fun _ => none)
    "sin" 2 "+" initialState (by intro h; exact absurd rfl h)
  exact ⟨h.1, h.2.2.2.1⟩

/-- C4: the pre-processor inserts `*` between a digit and an immediately
following letter, `π` or `(`, and between `)` and an immediately following
`(`; replaces `²` with `^2` and `π` with `pi`; rewrites `%` attached to a
numeric literal as `(literal/100)`; and in particular `"2x+3"` normalizes
to `"2*x+3"`, `"3²"` to `"3^2"` and `"50%+30"` to `"(50/100)+30"`. -/
theorem claim_C4_preprocessor :
    (∀ d ∈ asciiDigits, ∀ l ∈ asciiLetters,
        sanitizeExpressionForEval (String.mk [d, l]) = String.mk [d, '*', l]) ∧
    (∀ d ∈ asciiDigits,
        sanitizeExpressionForEval (String.mk [d, 'π']) =
          String.mk [d, '*', 'p', 'i']) ∧
    (∀ d ∈ asciiDigits,
        sanitizeExpressionForEval (String.mk [d, '(']) =
          String.mk [d, '*', '(']) ∧
    sanitizeExpressionForEval ")(" = ")*(" ∧
    sanitizeExpressionForEval "3²" = "3^2" ∧
    sanitizeExpressionForEval "π" = "pi" ∧
    sanitizeExpressionForEval "2x+3" = "2*x+3" ∧
    sanitizeExpressionForEval "50%+30" = "(50/100)+30" := by decide

/-- C4, witnessed on the digit `2` and the letter `x`. -/
theorem claim_C4_preprocessor_witness :
    sanitizeExpressionForEval (String.mk ['2', 'x']) =
      String.mk ['2', '*', 'x'] :=
  claim_C4_preprocessor.1 '2' (by decide) 'x' (by decide)

/-- C2 counterexample: for `a = -1, b = 0, c = 1` the discriminant is `4 > 0`
and the solver returns `x1 = -1, x2 = 1` — the `+√disc` root first — so the
claimed convention `x1 ≥ x2` fails (it holds only for positive leading
coefficient). -/
theorem claim_C2_counterexample :
    solveQuadraticEquation (-1) 0 1 = some (-1, 1) ∧ ¬ ((-1 : ℝ) ≥ 1) := by
  have hd : (0 : ℝ) * 0 - 4 * (-1) * 1 = 4 := by norm_num
  have hs : Real.sqrt 4 = 2 := by
    rw [show (4 : ℝ) = 2 ^ 2 by norm_num, Real.sqrt_sq (by norm_num : (0:ℝ) ≤ 2)]
  constructor
  · simp only [solveQuadraticEquation]
    rw [hd, if_neg (by norm_num : ¬ ((-1 : ℝ) = 0)),
      if_neg (by norm_num : ¬ ((4 : ℝ) < 0)),
      if_neg (by norm_num : ¬ ((4 : ℝ) = 0)), hs]
    norm_num
  · norm_num

/-- C2 amended: for `a ≠ 0` the solver returns `none` on a negative
discriminant, the repeated root `-b/(2a)` on a zero discriminant, and on a
positive discriminant two distinct roots with the `+√disc` root first,
which satisfy `x1 > x2` when `a > 0` but `x1 < x2` when `a < 0`; for
`a = 0` it fails with `none`. -/
theorem claim_C2_amended (a b c : ℝ) (ha : a ≠ 0) :
    (b * b - 4 * a * c < 0 → solveQuadraticEquation a b c = none) ∧
    (b * b - 4 * a * c = 0 →
      solveQuadraticEquation a b c = some (-b / (2 * a), -b / (2 * a))) ∧
    (0 < b * b - 4 * a * c →
      solveQuadraticEquation a b c =
        some ((-b + Real.sqrt (b * b - 4 * a * c)) / (2 * a),
              (-b - Real.sqrt (b * b - 4 * a * c)) / (2 * a)) ∧
      (-b + Real.sqrt (b * b - 4 * a * c)) / (2 * a) ≠
        (-b - Real.sqrt (b * b - 4 * a * c)) / (2 * a) ∧
      (0 < a →
        (-b + Real.sqrt (b * b - 4 * a * c)) / (2 * a) >
          (-b - Real.sqrt (b * b - 4 * a * c)) / (2 * a)) ∧
      (a < 0 →
        (-b + Real.sqrt (b * b - 4 * a * c)) / (2 * a) <
          (-b - Real.sqrt (b * b - 4 * a * c)) / (2 * a))) ∧
    solveQuadraticEquation 0 b c = none := by
  refine ⟨?_, ?_, ?_, ?_⟩
  · intro h
    simp only [solveQuadraticEquation]
    rw [if_neg ha, if_pos h]
  · intro h
    simp only [solveQuadraticEquation]
    rw [if_neg ha, if_neg (by rw [h]; exact lt_irrefl 0), if_pos h]
  · intro h
    have hsq : 0 < Real.sqrt (b * b - 4 * a * c) := Real.sqrt_pos.mpr h
    have h2a : (2 : ℝ) * a ≠ 0 := by
      intro h0
      exact ha (by linarith [mul_eq_zero.mp h0, (by norm_num : (2:ℝ) ≠ 0)])
    refine ⟨?_, ?_, ?_, ?_⟩
    · simp only [solveQuadraticEquation]
      rw [if_neg ha, if_neg (not_lt.mpr h.le), if_neg (ne_of_gt h)]
    · intro heq
      field_simp [h2a] at heq
      linarith
    · intro hpos
      have h2pos : (0 : ℝ) < 2 * a := by linarith
      rw [gt_iff_lt, div_lt_div_iff_of_pos_right h2pos]
      linarith
    · intro hneg
      have h2neg : 2 * a < (0 : ℝ) := by linarith
      rw [div_lt_div_right_of_neg h2neg]
      linarith
  · simp [solveQuadraticEquation]

/-- C2 amended, witnessed at `x² - 1 = 0` (roots `1` and `-1`) and at the
degenerate `a = 0`. -/
theorem claim_C2_amended_witness :
    solveQuadraticEquation 1 0 (-1) = some (1, -1) ∧
    solveQuadraticEquation 0 5 7 = none := by
  have h := claim_C2_amended 1 0 (-1) (by norm_num)
  constructor
  · rw [(h.2.2.1 (by norm_num)).1]
    have hs : Real.sqrt ((0 : ℝ) * 0 - 4 * 1 * (-1)) = 2 := by
      rw [show (0 : ℝ) * 0 - 4 * 1 * (-1) = 2 ^ 2 by norm_num,
        Real.sqrt_sq (by norm_num : (0:ℝ) ≤ 2)]
    rw [hs]
    norm_num
  · exact (claim_C2_amended 1 5 7 (by norm_num)).2.2.2

/-- The binary digit loop emits nothing at zero. -/
theorem toBinDigits_zero : toBinDigits 0 = [] := by
  rw [toBinDigits]
  rfl

/-- One unfolding of the binary digit loop. -/
theorem toBinDigits_pos (n : ℕ) (h : n ≠ 0) :
    toBinDigits n = toBinDigits (n / 2) ++ (toString (n % 2)).data := by
  rw [toBinDigits]
  exact dif_neg h

/-- The digit string of `n % 2`. -/
theorem binDigit_data (n : ℕ) :
    (toString (n % 2)).data = [if n % 2 = 1 then '1' else '0'] := by
  rcases Nat.mod_two_eq_zero_or_one n with h | h <;> rw [h] <;> rfl

/-- The accumulated positional value of the binary digit loop. -/
theorem binVal_toBinDigits (n : ℕ) : ∀ a : ℕ,
    (toBinDigits n).foldl (fun a c => 2 * a + (if c = '1' then 1 else 0)) a =
      a * 2 ^ (toBinDigits n).length + n := by
  induction n using Nat.strong_induction_on with
  | _ n ih =>
    intro a
    rcases Nat.eq_zero_or_pos n with h0 | hpos
    · subst h0
      rw [toBinDigits_zero]
      simp
    · rw [toBinDigits_pos n (by omega), List.foldl_append, List.length_append,
        binDigit_data, ih (n / 2) (by omega) a]
      set L := (toBinDigits (n / 2)).length with hL
      set x := a * 2 ^ L with hx
      have hxs : a * 2 ^ (L + [if n % 2 = 1 then '1' else '0'].length) = x * 2 := by
        rw [hx, List.length_singleton, pow_succ]
        ring
      rw [hxs]
      rcases Nat.mod_two_eq_zero_or_one n with h | h <;> rw [h] <;> simp <;> omega

/-- Every character the binary digit loop emits is `0` or `1`. -/
theorem toBinDigits_all (n : ℕ) : (toBinDigits n).all isBinChar = true := by
  induction n using Nat.strong_induction_on with
  | _ n ih =>
    rcases Nat.eq_zero_or_pos n with h0 | hpos
    · subst h0
      rw [toBinDigits_zero]
      rfl
    · rw [toBinDigits_pos n (by omega), List.all_append, ih (n / 2) (by omega),
        binDigit_data]
      rcases Nat.mod_two_eq_zero_or_one n with h | h <;> rw [h] <;> rfl

/-- The binary digit loop emits at least one digit for a nonzero input. -/
theorem toBinDigits_ne_nil (n : ℕ) (h : n ≠ 0) : toBinDigits n ≠ [] := by
  rw [toBinDigits_pos n h, binDigit_data]
  simp

/-- `decimalToBinary` on a nonzero natural number is the digit loop. -/
theorem decimalToBinary_natCast (n : ℕ) (h : n ≠ 0) :
    decimalToBinary (n : ℚ) = String.mk (toBinDigits n) := by
  rw [decimalToBinary, if_neg (not_lt.mpr (by positivity)),
    if_neg (Nat.cast_ne_zero.mpr h), Int.floor_natCast, Int.toNat_natCast]

/-- `decimalToBinary 0 = "0"`. -/
theorem decimalToBinary_zero : decimalToBinary 0 = "0" := by
  rw [decimalToBinary]
  norm_num

/-- The hex digit loop emits nothing at zero. -/
theorem toHexDigits_zero : toHexDigits 0 = [] := by
  rw [toHexDigits]
  rfl

/-- One unfolding of the hex digit loop. -/
theorem toHexDigits_pos (n : ℕ) (h : n ≠ 0) :
    toHexDigits n = toHexDigits (n / 16) ++ [hexDigitChar (n % 16)] := by
  rw [toHexDigits]
  exact dif_neg h

/-- The digit table decodes back to the digit's value, for digits `< 16`. -/
theorem hexCharVal_hexDigitChar : ∀ k < 16, hexCharVal (hexDigitChar k) = k := by
  decide

/-- The digit table only produces valid hexadecimal characters. -/
theorem isHexChar_hexDigitChar : ∀ k < 16, isHexChar (hexDigitChar k) = true := by
  decide

/-- The accumulated positional value of the hex digit loop. -/
theorem hexVal_toHexDigits (n : ℕ) : ∀ a : ℕ,
    (toHexDigits n).foldl (fun a c => 16 * a + hexCharVal c) a =
      a * 16 ^ (toHexDigits n).length + n := by
  induction n using Nat.strong_induction_on with
  | _ n ih =>
    intro a
    rcases Nat.eq_zero_or_pos n with h0 | hpos
    · subst h0
      rw [toHexDigits_zero]
      simp
    · rw [toHexDigits_pos n (by omega), List.foldl_append, List.length_append,
        ih (n / 16) (by omega) a]
      set L := (toHexDigits (n / 16)).length with hL
      set x := a * 16 ^ L with hx
      have hxs : a * 16 ^ (L + [hexDigitChar (n % 16)].length) = x * 16 := by
        rw [hx, List.length_singleton, pow_succ]
        ring
      rw [hxs]
      simp only [List.foldl_cons, List.foldl_nil]
      rw [hexCharVal_hexDigitChar (n % 16) (Nat.mod_lt n (by norm_num))]
      omega

/-- Every character the hex digit loop emits is a valid hex digit. -/
theorem toHexDigits_all (n : ℕ) : (toHexDigits n).all isHexChar = true := by
  induction n using Nat.strong_induction_on with
  | _ n ih =>
    rcases Nat.eq_zero_or_pos n with h0 | hpos
    · subst h0
      rw [toHexDigits_zero]
      rfl
    · rw [toHexDigits_pos n (by omega), List.all_append, ih (n / 16) (by omega)]
      simp [isHexChar_hexDigitChar (n % 16) (Nat.mod_lt n (by norm_num))]

/-- The hex digit loop emits at least one digit for a nonzero input. -/
theorem toHexDigits_ne_nil (n : ℕ) (h : n ≠ 0) : toHexDigits n ≠ [] := by
  rw [toHexDigits_pos n h]
  simp

/-- `decimalToHex` on a nonzero natural number is the digit loop. -/
theorem decimalToHex_natCast (n : ℕ) (h : n ≠ 0) :
    decimalToHex (n : ℚ) = String.mk (toHexDigits n) := by
  rw [decimalToHex, if_neg (not_lt.mpr (by positivity)),
    if_neg (Nat.cast_ne_zero.mpr h), Int.floor_natCast, Int.toNat_natCast]

/-- `decimalToHex 0 = "0"`. -/
theorem decimalToHex_zero : decimalToHex 0 = "0" := by
  rw [decimalToHex]
  norm_num

/-- C5: for every natural number `n < 2^31`, converting to binary (resp.
hexadecimal) and parsing the digits back recovers exactly `n`. -/
theorem claim_C5_roundtrip (n : ℕ) (hn : n < 2 ^ 31) :
    binaryToDecimal (decimalToBinary (n : ℚ)) = some (n : ℚ) ∧
    hexToDecimal (decimalToHex (n : ℚ)) = some (n : ℚ) := by
  constructor
  · rcases Nat.eq_zero_or_pos n with h0 | hpos
    · subst h0
      rw [Nat.cast_zero, decimalToBinary_zero, binaryToDecimal,
        if_pos (by decide)]
      rfl
    · rw [decimalToBinary_natCast n (by omega), binaryToDecimal,
        if_pos ⟨toBinDigits_ne_nil n (by omega), toBinDigits_all n⟩]
      have hv : binVal (toBinDigits n) = n := by
        rw [binVal, binVal_toBinDigits n 0]
        simp
      rw [hv]
  · rcases Nat.eq_zero_or_pos n with h0 | hpos
    · subst h0
      rw [Nat.cast_zero, decimalToHex_zero, hexToDecimal, if_pos (by decide)]
      rfl
    · rw [decimalToHex_natCast n (by omega), hexToDecimal,
        if_pos ⟨toHexDigits_ne_nil n (by omega), toHexDigits_all n⟩]
      have hv : hexVal (toHexDigits n) = n := by
        rw [hexVal, hexVal_toHexDigits n 0]
        simp
      rw [hv]

/-- C5, witnessed at `n = 5`. -/
theorem claim_C5_roundtrip_witness :
    binaryToDecimal (decimalToBinary ((5 : ℕ) : ℚ)) = some ((5 : ℕ) : ℚ) ∧
    hexToDecimal (decimalToHex ((5 : ℕ) : ℚ)) = some ((5 : ℕ) : ℚ) :=
  claim_C5_roundtrip 5 (by norm_num)

/-- C6 counterexample: `decimalToBinary(0.5)` has converted magnitude zero
(`floor(0.5) = 0`) but returns the empty string, not `"0"` — only the exact
input `0` maps to `"0"`. -/
theorem claim_C6_counterexample :
    decimalToBinary (1 / 2 : ℚ) = "" ∧ ("" : String) ≠ "0" := by
  constructor
  · rw [decimalToBinary, if_neg (by norm_num), if_neg (by norm_num)]
    rw [show ⌊(1 / 2 : ℚ)⌋ = 0 by norm_num, Int.toNat_zero, toBinDigits_zero]
  · decide

/-- Digit lists of the small binary conversions used below. -/
theorem toBinDigits_five : toBinDigits 5 = ['1', '0', '1'] := by
  have e1 : toBinDigits 1 = ['1'] := by
    rw [toBinDigits_pos 1 one_ne_zero,
      show (1 : ℕ) / 2 = 0 by norm_num, toBinDigits_zero,
      show (1 : ℕ) % 2 = 1 by norm_num]
    rfl
  have e2 : toBinDigits 2 = ['1', '0'] := by
    rw [toBinDigits_pos 2 (by norm_num),
      show (2 : ℕ) / 2 = 1 by norm_num, e1,
      show (2 : ℕ) % 2 = 0 by norm_num]
    rfl
  rw [toBinDigits_pos 5 (by norm_num),
    show (5 : ℕ) / 2 = 2 by norm_num, e2,
    show (5 : ℕ) % 2 = 1 by norm_num]
  rfl

/-- C6 amended: both converters truncate the fractional part and convert by
repeated division, recurse on the absolute value with a `-` sign for
negative inputs, and map the exact input `0` to `"0"`; but a nonzero input
whose truncated magnitude is zero yields the empty digit string `""`, not
`"0"`.  In particular `decimalToBinary 0 = "0"`, `decimalToHex 0 = "0"` and
`decimalToBinary (-5) = "-101"`. -/
theorem claim_C6_amended (q : ℚ) :
    decimalToBinary 0 = "0" ∧
    decimalToHex 0 = "0" ∧
    decimalToBinary (-5) = "-101" ∧
    (q < 0 → decimalToBinary q = "-" ++ decimalToBinary (-q) ∧
      decimalToHex q = "-" ++ decimalToHex (-q)) ∧
    (1 ≤ q → decimalToBinary q = decimalToBinary ((⌊q⌋ : ℤ) : ℚ) ∧
      decimalToHex q = decimalToHex ((⌊q⌋ : ℤ) : ℚ)) ∧
    (0 < q → q < 1 → decimalToBinary q = "" ∧ decimalToHex q = "") := by
  refine ⟨decimalToBinary_zero, decimalToHex_zero, ?_, ?_, ?_, ?_⟩
  · rw [decimalToBinary, if_pos (by norm_num : (-5 : ℚ) < 0), neg_neg]
    rw [show (5 : ℚ) = ((5 : ℕ) : ℚ) by norm_num,
      decimalToBinary_natCast 5 (by norm_num), toBinDigits_five]
    rfl
  · intro h
    constructor
    · rw [decimalToBinary, if_pos h]
    · rw [decimalToHex, if_pos h]
  · intro h
    have hf1 : (1 : ℤ) ≤ ⌊q⌋ := by
      rw [show (1 : ℤ) = ⌊(1 : ℚ)⌋ by norm_num]
      exact Int.floor_le_floor h
    have hfq : ⌊((⌊q⌋ : ℤ) : ℚ)⌋ = ⌊q⌋ := Int.floor_intCast _
    have hnl : ¬ (((⌊q⌋ : ℤ) : ℚ) < 0) :=
      not_lt.mpr (by exact_mod_cast (by omega : (0 : ℤ) ≤ ⌊q⌋))
    have hnz : ¬ (((⌊q⌋ : ℤ) : ℚ) = 0) := by
      intro h0
      have h0i : ⌊q⌋ = 0 := by exact_mod_cast h0
      omega
    constructor
    · rw [decimalToBinary, if_neg (by linarith), if_neg (by linarith),
        decimalToBinary, if_neg hnl, if_neg hnz, hfq]
    · rw [decimalToHex, if_neg (by linarith), if_neg (by linarith),
        decimalToHex, if_neg hnl, if_neg hnz, hfq]
  · intro h0 h1
    have hf : ⌊q⌋ = 0 := by
      rw [Int.floor_eq_zero_iff]
      exact ⟨le_of_lt h0, h1⟩
    constructor
    · rw [decimalToBinary, if_neg (by linarith), if_neg (by linarith), hf,
        Int.toNat_zero, toBinDigits_zero]
    · rw [decimalToHex, if_neg (by linarith), if_neg (by linarith), hf,
        Int.toNat_zero, toHexDigits_zero]

/-- C6 amended, witnessed at `q = -5` (its digit facts) and the fractional
input `3/4`. -/
theorem claim_C6_amended_witness :
    decimalToBinary (-5) = "-101" ∧ decimalToBinary (3 / 4 : ℚ) = "" := by
  have h := claim_C6_amended (3 / 4)
  exact ⟨h.2.2.1, (h.2.2.2.2.2 (by norm_num) (by norm_num)).1⟩

/-- C7: a displayed value within `1e-12` of an integer renders as exactly
that integer's digits with no decimal point; non-finite values render as
the `"NaN"` marker; `4` renders as `"4"` and `1/3` as `"0.333333"` (six
fractional digits, trailing zeros stripped). -/
theorem claim_C7_format_rule :
    (∀ v : ℚ, ∀ m : ℤ, |v - (m : ℚ)| < 1 / 10 ^ 12 →
        formatNumberJS (some v) = toString m) ∧
    formatNumberJS none = "NaN" ∧
    formatNumberJS (some 4) = "4" ∧
    formatNumberJS (some (1 / 3)) = "0.333333" := by
  refine ⟨?_, rfl, ?_, ?_⟩
  · intro v m h
    exact formatNumber_near_int v m h
  · show formatNumber 4 = "4"
    rw [show (4 : ℚ) = ((4 : ℤ) : ℚ) by norm_num, formatNumber_int]
    rfl
  · show formatNumber (1 / 3) = "0.333333"
    have hr : round ((1 : ℚ) / 3) = 0 := by norm_num [round_eq]
    have hn : round ((1 : ℚ) / 3 * 10 ^ 6) = 333333 := by norm_num [round_eq]
    have habs : ¬ (|(((0 : ℤ) : ℚ)) - 1 / 3| < 1 / 10 ^ 12) := by
      rw [show (((0 : ℤ) : ℚ)) = 0 by norm_num, zero_sub, abs_neg,
        abs_of_nonneg (by norm_num : (0 : ℚ) ≤ 1 / 3)]
      norm_num
    simp only [formatNumber]
    rw [hr, if_neg habs, hn]
    decide

/-- C7, witnessed on the first conjunct at `v = 4 + 1e-13`, `m = 4`. -/
theorem claim_C7_format_rule_witness :
    formatNumberJS (some (4 + 1 / 10 ^ 13 : ℚ)) = toString (4 : ℤ) :=
  claim_C7_format_rule.1 (4 + 1 / 10 ^ 13) 4 (by
    rw [show (4 : ℚ) + 1 / 10 ^ 13 - ((4 : ℤ) : ℚ) = 1 / 10 ^ 13 by norm_num,
      abs_of_nonneg (by norm_num : (0 : ℚ) ≤ 1 / 10 ^ 13)]
    norm_num)

/-- C8: when evaluating the current input fails (`none`), every unary
function handler — trigonometric (including cot, via its callback),
square root, reciprocal, power and exponential — sets `result` to its
invalid-input marker, keeps `inputText` unchanged (the record update
leaves `input` untouched), and enters the `Computed` state. -/
theorem claim_C8_unary_failure (evalF : String → Option ℚ)
    (func : ℚ → Option ℚ) (powF : ℚ → ℚ → Option ℚ) (sqrtF : ℚ → ℚ)
    (expF : ℚ → Option ℚ) (label : String) (ex : ℚ)
    (st : CalculatorState)
    (h : evaluateExpressionValue evalF st.input = none) :
    calculateTrigFunction evalF func label st =
      { st with
          result := some invalidInputMarker
          lastExpression := none
          justComputed := true } ∧
    handleSquareRoot evalF sqrtF st =
      { st with
          result := some invalidInputMarker
          justComputed := true } ∧
    handleReciprocal evalF st =
      { st with
          result := some reciprocalErrorMarker
          justComputed := true } ∧
    handlePower evalF powF ex st =
      { st with
          result := some invalidInputMarker
          justComputed := true } ∧
    handleExp evalF expF st =
      { st with
          result := some invalidInputMarker
          justComputed := true } := by
  unfold calculateTrigFunction handleSquareRoot handleReciprocal handlePower
    handleExp
  rw [h]
  exact ⟨rfl, rfl, rfl, rfl, rfl⟩

/-- C8, witnessed on the trig handler with an evaluator that always
fails, from the initial state. -/
theorem claim_C8_unary_failure_witness :
    calculateTrigFunction (fun _ => none) (fun _ => none) "sin" initialState =
      { initialState with
          result := some invalidInputMarker
          lastExpression := none
          justComputed := true } :=
  (claim_C8_unary_failure (fun _ => none) (fun _ => none) (fun _ _ => none)
    (fun q => q) (fun _ => none) "sin" 2 initialState rfl).1

/-- The `factorial` utility agrees with the mathematical factorial on every
natural number — in particular its recursion terminates there. -/
theorem factorial_natCast (k : ℕ) :
    factorial (k : ℚ) = some ((Nat.factorial k : ℕ) : ℚ) := by
  induction k with
  | zero =>
    rw [factorial]
    norm_num [Nat.factorial]
  | succ n ih =>
    rcases Nat.eq_zero_or_pos n with h0 | hpos
    · subst h0
      rw [factorial]
      norm_num [Nat.factorial]
    · rw [factorial]
      have hlt : ¬ (((n + 1 : ℕ) : ℚ) < 0) := not_lt.mpr (by positivity)
      have hne : ¬ (((n + 1 : ℕ) : ℚ) = 0 ∨ ((n + 1 : ℕ) : ℚ) = 1) := by
        rintro (h | h)
        · exact absurd (by exact_mod_cast h : (n + 1 : ℕ) = 0) (by omega)
        · exact absurd (by exact_mod_cast h : (n + 1 : ℕ) = 1) (by omega)
      rw [if_neg hlt, if_neg hne,
        show ((n + 1 : ℕ) : ℚ) - 1 = (n : ℚ) by push_cast; ring, ih]
      simp only [Option.map_some']
      congr 1
      rw [Nat.factorial_succ]
      push_cast
      ring

/-- C9: the recursive `factorial` is total — it is definable as a
terminating function on all of `ℚ` — returning the NaN sentinel below
zero, `1` at `0` and `1`, and `n * factorial (n - 1)` otherwise (NaN
propagating through the product); on natural numbers it computes the
mathematical factorial. -/
theorem claim_C9_factorial_total :
    (∀ n : ℚ, n < 0 → factorial n = none) ∧
    factorial 0 = some 1 ∧ factorial 1 = some 1 ∧
    (∀ n : ℚ, ¬ n < 0 → n ≠ 0 → n ≠ 1 →
      factorial n = (factorial (n - 1)).map fun r => n * r) ∧
    (∀ k : ℕ, factorial (k : ℚ) = some ((Nat.factorial k : ℕ) : ℚ)) := by
  refine ⟨?_, ?_, ?_, ?_, factorial_natCast⟩
  · intro n h
    rw [factorial, if_pos h]
  · rw [factorial]
    norm_num
  · rw [factorial]
    norm_num
  · intro n h0 h1 h2
    rw [factorial, if_neg h0, if_neg (by tauto)]

/-- C9, witnessed at `n = -1` (sentinel) and `n = 5` (value `120`). -/
theorem claim_C9_factorial_total_witness :
    factorial (-1 : ℚ) = none ∧
    factorial ((5 : ℕ) : ℚ) = some ((Nat.factorial 5 : ℕ) : ℚ) :=
  ⟨claim_C9_factorial_total.1 (-1) (by norm_num),
   claim_C9_factorial_total.2.2.2.2 5⟩

/-- JS `String(out)` of an integer agrees whether the integer is read as
`ℤ` or as `ℕ`. -/
theorem toString_intCast_nat (m : ℕ) : toString ((m : ℤ)) = toString m := rfl

/-- C10: `handleFactorial` invokes the factorial utility only when the
evaluated input is a non-negative integer; on a failed evaluation or a
negative or non-integer value it shows the error marker, enters `Computed`
and leaves `inputText` unchanged; and on a non-negative integer the state
it produces is the terminating factorial value `(v.num.toNat)!`. -/
theorem claim_C10_factorial_guard (evalF : String → Option ℚ)
    (st : CalculatorState) :
    (evaluateExpressionValue evalF st.input = none →
      handleFactorial evalF st =
        { st with
            result := some factorialErrorMarker
            justComputed := true }) ∧
    (∀ v : ℚ, evaluateExpressionValue evalF st.input = some v →
      (v.den ≠ 1 ∨ v < 0) →
      handleFactorial evalF st =
        { st with
            result := some factorialErrorMarker
            justComputed := true }) ∧
    (∀ v : ℚ, evaluateExpressionValue evalF st.input = some v →
      v.den = 1 → 0 ≤ v →
      handleFactorial evalF st =
        { st with
            lastExpression := some (toString v.num ++ "!")
            result := some (toString (Nat.factorial v.num.toNat))
            input := toString (Nat.factorial v.num.toNat)
            justComputed := true }) := by
  refine ⟨?_, ?_, ?_⟩
  · intro h
    unfold handleFactorial
    rw [h]
  · intro v hv hbad
    unfold handleFactorial
    rw [hv]
    dsimp only
    rw [if_pos hbad]
  · intro v hv hden hnn
    unfold handleFactorial
    rw [hv]
    dsimp only
    rw [if_neg (by push_neg; exact ⟨hden, hnn⟩)]
    have hnum : (0 : ℤ) ≤ v.num := Rat.num_nonneg.mpr hnn
    have hv1 : ((v.num.toNat : ℕ) : ℚ) = v := by
      have h1 : ((v.num.toNat : ℕ) : ℤ) = v.num := Int.toNat_of_nonneg hnum
      have h2 : ((v.num : ℤ) : ℚ) = v := by
        conv_rhs => rw [← Rat.num_div_den v]
        rw [hden]
        norm_num
      rw [← h2, ← h1]
      push_cast
      rfl
    have hfac : factorial v = some ((Nat.factorial v.num.toNat : ℕ) : ℚ) := by
      conv_lhs => rw [← hv1]
      rw [factorial_natCast]
    rw [hfac]
    have hjs : jsNumberToString (some ((Nat.factorial v.num.toNat : ℕ) : ℚ)) =
        toString (Nat.factorial v.num.toNat) := by
      simp only [jsNumberToString, Rat.den_natCast, Rat.num_natCast, if_true]
      exact toString_intCast_nat _
    rw [hjs]

/-- C10, witnessed with an evaluator that always fails and one that
returns the non-integer `1/2`, from the initial state. -/
theorem claim_C10_factorial_guard_witness :
    handleFactorial (fun _ => none) initialState =
      { initialState with
          result := some factorialErrorMarker
          justComputed := true } ∧
    handleFactorial (fun _ => some (1 / 2)) initialState =
      { initialState with
          result := some factorialErrorMarker
          justComputed := true } := by
  constructor
  · exact (claim_C10_factorial_guard (fun _ => none) initialState).1 rfl
  · exact (claim_C10_factorial_guard (fun _ => some (1 / 2))
      initialState).2.1 (1 / 2) rfl (Or.inl (by norm_num))

end CalcProj

